import Mathlib

/-
Formal model of `src/main.rs` from VirxEC/stat-final-data.

Modelling conventions:
* f32 arithmetic is modelled as exact real-number arithmetic (ℝ); f32 values at
  the serialization layer are modelled by their 32-bit patterns (naturals < 2^32),
  since `to_le_bytes` operates on the bit pattern, not the numeric value.
* The physics engine (rocketsim, declared out of scope by the design document) is
  abstracted: the orientation and angular-velocity the engine reports at the top
  of each control-loop iteration are arbitrary traces `Nat → Mat3` / `Nat → Vec3`,
  and the engine's Euler-angles-to-rotation-matrix conversion is an arbitrary
  function `Angle → Mat3`.
* IEEE non-finite results (NaN/∞) cannot be represented in ℝ.  The one reachable
  source of non-finite values — `Vec3A::normalize` on a zero-length vector, whose
  components become 0 · ∞ = NaN — is modelled by returning `none`.
-/

namespace StatFinalData

/-! ### Serialization layer (main.rs lines 84-111)

Each f32 field is represented by its 32-bit pattern (a natural < 2^32). -/

/-- `f32::to_le_bytes` on the 32-bit pattern `w`: four little-endian bytes. -/
def to_le_bytes (w : Nat) : List Nat :=
  [w % 256, w / 256 % 256, w / 65536 % 256, w / 16777216 % 256]

/-- A 3-vector of f32 bit patterns (serialization view of `Vec3A`). -/
structure Vec3Bits where
  x : Nat
  y : Nat
  z : Nat
deriving DecidableEq

/-- Euler angles as f32 bit patterns (serialization view of `Angle`). -/
structure AngleBits where
  pitch : Nat
  yaw : Nat
  roll : Nat
deriving DecidableEq

/-- `SimResult` (main.rs lines 118-123) at the serialization layer. -/
structure SimResultBits where
  initial_angular_velocity : Vec3Bits
  relative_target : AngleBits
  time : Nat
deriving DecidableEq

/-- All seven fields are genuine 32-bit patterns. -/
def SimResultBits.wf (r : SimResultBits) : Prop :=
  r.initial_angular_velocity.x < 4294967296 ∧
  r.initial_angular_velocity.y < 4294967296 ∧
  r.initial_angular_velocity.z < 4294967296 ∧
  r.relative_target.pitch < 4294967296 ∧
  r.relative_target.yaw < 4294967296 ∧
  r.relative_target.roll < 4294967296 ∧
  r.time < 4294967296

instance (r : SimResultBits) : Decidable r.wf := by
  unfold SimResultBits.wf
  infer_instance

/-- The byte image of one record (main.rs lines 87-99): seven little-endian
32-bit floats in fixed order — angular-velocity x, y, z; target pitch, yaw,
roll; elapsed time. -/
def encode_record (r : SimResultBits) : List Nat :=
  to_le_bytes r.initial_angular_velocity.x ++
  to_le_bytes r.initial_angular_velocity.y ++
  to_le_bytes r.initial_angular_velocity.z ++
  to_le_bytes r.relative_target.pitch ++
  to_le_bytes r.relative_target.yaw ++
  to_le_bytes r.relative_target.roll ++
  to_le_bytes r.time

/-- The `for result in &current_results { bytes.extend(..) }` loop
(main.rs lines 87-99): records concatenated in round (append) order. -/
def encode_round (rs : List SimResultBits) : List Nat :=
  rs.foldl (fun bytes r => bytes ++ encode_record r) []

/-- Recombine four little-endian bytes into a 32-bit word. -/
def from_le_bytes (b0 b1 b2 b3 : Nat) : Nat :=
  b0 + 256 * b1 + 65536 * b2 + 16777216 * b3

/-- Modelled from the spec: the decoder for the output files is not part of this
repository (only the encoder, main.rs lines 84-111, is).  Per spec §4.5/§8 the
decompressed buffer is read back as consecutive 28-byte records, each seven
little-endian 32-bit floats in the fixed field order; the zstd compression in
between is an external lossless codec (decompress ∘ compress = id), so decoding
operates on the raw encoded buffer. -/
def decode_round : List Nat → List SimResultBits
  | a0 :: a1 :: a2 :: a3 :: b0 :: b1 :: b2 :: b3 :: c0 :: c1 :: c2 :: c3 ::
    d0 :: d1 :: d2 :: d3 :: e0 :: e1 :: e2 :: e3 :: f0 :: f1 :: f2 :: f3 ::
    g0 :: g1 :: g2 :: g3 :: rest =>
      { initial_angular_velocity :=
          ⟨from_le_bytes a0 a1 a2 a3, from_le_bytes b0 b1 b2 b3,
           from_le_bytes c0 c1 c2 c3⟩
        relative_target :=
          ⟨from_le_bytes d0 d1 d2 d3, from_le_bytes e0 e1 e2 e3,
           from_le_bytes f0 f1 f2 f3⟩
        time := from_le_bytes g0 g1 g2 g3 } :: decode_round rest
  | _ => []

/-! ### Round aggregator (main.rs lines 61-114)

The aggregator state: the per-round contributor counter `current_threads`, the
round accumulator `current_results`, and the list of rounds flushed so far
(each flushed round modelled by the record list that was encoded and written).
The throughput counter (`total_time`) is print-only diagnostics and is not
modelled. -/

structure AggState (α : Type) where
  current_threads : Nat
  current_results : List α
  flushed : List (List α)
deriving DecidableEq

/-- One iteration of `for results in rx` (main.rs lines 64-114): increment the
contributor counter, append the batch, and if the counter reached the worker
count, flush the accumulator and clear it. -/
def agg_step {α : Type} (num_threads : Nat) (st : AggState α) (batch : List α) :
    AggState α :=
  let ct := st.current_threads + 1
  let cr := st.current_results ++ batch
  if ct = num_threads then
    { current_threads := 0, current_results := [], flushed := st.flushed ++ [cr] }
  else
    { current_threads := ct, current_results := cr, flushed := st.flushed }

/-- The aggregator run on a finite prefix of the channel's arrival sequence,
starting from the initial state (counter 0, empty accumulator, no files). -/
def agg_run {α : Type} (num_threads : Nat) (batches : List (List α)) : AggState α :=
  batches.foldl (agg_step num_threads) ⟨0, [], []⟩

/-- The same run with each arriving batch tagged by the worker that sent it:
the aggregator itself never inspects the tag (the channel does not carry one). -/
def agg_run_tagged {α : Type} (num_threads : Nat) (msgs : List (Nat × List α)) :
    AggState α :=
  agg_run num_threads (msgs.map Prod.snd)

/-- The worker's collection loop (main.rs lines 41-45): `if let Some(result) =
simulation.do_random() { results.push(result) }` — `None` outcomes contribute
nothing to the batch. -/
def collect_results {α : Type} (outcomes : List (Option α)) : List α :=
  outcomes.filterMap id

/-! ### Real-valued model of the simulation core

f32 arithmetic is modelled as exact arithmetic on ℝ. -/

noncomputable section RealModel

/-- `glam` `Vec3A`, with f32 components modelled as reals. -/
structure Vec3 where
  x : ℝ
  y : ℝ
  z : ℝ

/-- Componentwise sum. -/
def Vec3.add (a b : Vec3) : Vec3 := ⟨a.x + b.x, a.y + b.y, a.z + b.z⟩

/-- Scalar multiple. -/
def Vec3.smul (c : ℝ) (v : Vec3) : Vec3 := ⟨c * v.x, c * v.y, c * v.z⟩

/-- `Vec3A::dot`. -/
def Vec3.dot (a b : Vec3) : ℝ := a.x * b.x + a.y * b.y + a.z * b.z

/-- `Vec3A::length` — the Euclidean norm. -/
def Vec3.length (v : Vec3) : ℝ := Real.sqrt (v.dot v)

/-- `Vec3A::normalize` = `self * self.length().recip()`.  For a zero-length
input, `length.recip()` is +∞ and the components become 0 · ∞ = NaN, a
non-finite vector: modelled as `none`.  For nonzero input the result is the
exact real normalization. -/
def Vec3.normalize (v : Vec3) : Option Vec3 :=
  if v.length = 0 then none else some (Vec3.smul (1 / v.length) v)

/-- Total normalization used where the input is provably nonzero (the target
vector always has length 1000, see `targetVec_length`): agrees with
`Vec3.normalize` on every nonzero vector. -/
def Vec3.normalizeTot (v : Vec3) : Vec3 := Vec3.smul (1 / v.length) v

/-- `glam` `Mat3A`: column-major, the three columns are the images of the
coordinate axes. -/
structure Mat3 where
  xAxis : Vec3
  yAxis : Vec3
  zAxis : Vec3

/-- Matrix–vector product: `x_axis * v.x + y_axis * v.y + z_axis * v.z`. -/
def Mat3.mulVec (m : Mat3) (v : Vec3) : Vec3 :=
  Vec3.add (Vec3.add (Vec3.smul v.x m.xAxis) (Vec3.smul v.y m.yAxis))
    (Vec3.smul v.z m.zAxis)

/-- `Mat3A::transpose`. -/
def Mat3.transpose (m : Mat3) : Mat3 :=
  ⟨⟨m.xAxis.x, m.yAxis.x, m.zAxis.x⟩,
   ⟨m.xAxis.y, m.yAxis.y, m.zAxis.y⟩,
   ⟨m.xAxis.z, m.yAxis.z, m.zAxis.z⟩⟩

/-- The identity rotation matrix. -/
def Mat3.id : Mat3 := ⟨⟨1, 0, 0⟩, ⟨0, 1, 0⟩, ⟨0, 0, 1⟩⟩

/-- `rocketsim_rs::math::Angle`: pitch/yaw/roll Euler angles. -/
structure Angle where
  pitch : ℝ
  yaw : ℝ
  roll : ℝ

/-- `SimResult` (main.rs lines 118-123), real-valued view. -/
structure SimResult where
  initial_angular_velocity : Vec3
  relative_target : Angle
  time : ℝ

/-- `rocketsim_rs::sim::CarControls`; fields not set by `default_pd` take the
`Default::default()` values (zeros / false). -/
structure CarControls where
  throttle : ℝ
  steer : ℝ
  pitch : ℝ
  yaw : ℝ
  roll : ℝ
  boost : Bool
  jump : Bool
  handbrake : Bool

/-- Rust `f32::clamp(lo, hi)` = `self.max(lo).min(hi)` (for finite inputs). -/
def clampR (v lo hi : ℝ) : ℝ := min (max v lo) hi

/-- `control_pd` (main.rs lines 235-237):
`((35. * (angle + rate)).powi(3) / 10.).clamp(-1., 1.)`. -/
def control_pd (angle rate : ℝ) : ℝ :=
  clampR ((35 * (angle + rate)) ^ 3 / 10) (-1) 1

/-- `f32::atan2` for finite arguments (the standard four-quadrant arctangent;
`atan2 0 0 = 0` as for IEEE positive zeros). -/
def atan2 (y x : ℝ) : ℝ :=
  if 0 < x then Real.arctan (y / x)
  else if x < 0 then
    (if 0 ≤ y then Real.arctan (y / x) + Real.pi else Real.arctan (y / x) - Real.pi)
  else if 0 < y then Real.pi / 2
  else if y < 0 then -(Real.pi / 2)
  else 0

/-- `default_pd` (main.rs lines 239-256). -/
def default_pd (local_target local_ang_vel local_up : Vec3) : CarControls :=
  let target_angles : Angle :=
    { pitch := atan2 local_target.z local_target.x
      yaw := atan2 local_target.y local_target.x
      roll := atan2 local_up.y local_up.z }
  let pitch := control_pd target_angles.pitch (local_ang_vel.y / 3.4)
  let yaw := control_pd target_angles.yaw (-local_ang_vel.z / 5.0)
  let roll := control_pd target_angles.roll (local_ang_vel.x / 3.1)
  { throttle := 0, steer := 0, pitch := pitch, yaw := yaw, roll := roll,
    boost := false, jump := false, handbrake := false }

/-! ### Scenario sampling (main.rs lines 157-177)

`d0 d1 d2 u p y rr tp ty` are the nine consecutive `rng.f32()` draws, in the
order the source consumes them; each lies in [0, 1). -/

/-- main.rs lines 158-159: `Vec3A::new(f32, f32, f32).normalize() * f32 * 5.5`. -/
def sampleAngVel (d0 d1 d2 u : ℝ) : Option Vec3 :=
  (Vec3.normalize ⟨d0, d1, d2⟩).map fun n => Vec3.smul 5.5 (Vec3.smul u n)

/-- The values the sampler hands to the rest of `do_random`. -/
structure ScenarioSample where
  ang_vel : Option Vec3
  angle : Angle
  target_pitch : ℝ
  target_yaw : ℝ

/-- The scenario-sampling prefix of `do_random` (main.rs lines 157-177),
as a pure function of the nine random draws. -/
def sampleScenario (d0 d1 d2 u p y rr tp ty : ℝ) : ScenarioSample :=
  { ang_vel := sampleAngVel d0 d1 d2 u
    angle := ⟨p * Real.pi, y * Real.pi, rr * Real.pi⟩
    target_pitch := tp * Real.pi
    target_yaw := ty * Real.pi }

/-! ### The control loop (main.rs lines 186-231) -/

/-- main.rs lines 188-192: the world-frame target point,
`Vec3A::new(cos tp * cos ty, sin tp, cos tp * sin ty) * 1000`. -/
def targetVec (tp ty : ℝ) : Vec3 :=
  Vec3.smul 1000
    ⟨Real.cos tp * Real.cos ty, Real.sin tp, Real.cos tp * Real.sin ty⟩

/-- main.rs lines 201-203: the orientation error of one loop iteration —
`(rot * Vec3A::X).dot(target_dir).clamp(-1., 1.).acos()`. -/
def orientation_error (rot : Mat3) (target_dir : Vec3) : ℝ :=
  Real.arccos (clampR (Vec3.dot (rot.mulVec ⟨1, 0, 0⟩) target_dir) (-1) 1)

/-- The convergence loop of `do_random` (main.rs lines 196-224), started at
step counter `n`.  The engine is abstracted by the traces `rot` / `av`: the
orientation and angular velocity `arena.get_car` reports at the top of the
iteration with step counter `n` (the controls computed each tick are fed to
the engine, whose response is exactly those traces).  Returns the step counter
at success, or `none` on the step-cap failure path (`return None`). -/
def sim_loop (rot : Nat → Mat3) (av : Nat → Vec3) (target target_dir : Vec3)
    (n : Nat) : Option Nat :=
  if orientation_error (rot n) target_dir < 0.1 then
    some n
  else if h2 : n > 120 * 30 then
    none
  else
    let local_target := (rot n).transpose.mulVec target
    let local_ang_vel := (rot n).transpose.mulVec (av n)
    let local_up := (rot n).mulVec ⟨0, 0, 1⟩
    let _controls := default_pd local_target local_ang_vel local_up
    sim_loop rot av target target_dir (n + 1)
termination_by 3602 - n
decreasing_by omega

/-- The body of `do_random` (main.rs lines 147-232) downstream of the sampler,
for a scenario with (finite) sampled world-frame angular velocity `av0`,
initial Euler angles `angle`, and raw target angles `tp`, `ty`.  `to_rotmat`
abstracts `Angle::to_rotmat` and `rot`/`av` the engine traces as in
`sim_loop`. -/
def do_random (to_rotmat : Angle → Mat3) (rot : Nat → Mat3) (av : Nat → Vec3)
    (av0 : Vec3) (angle : Angle) (tp ty : ℝ) : Option SimResult :=
  let initial_rot := to_rotmat angle
  let relative_ang_vel := initial_rot.transpose.mulVec av0
  let rel_target_angles : Angle :=
    ⟨tp - angle.pitch, ty - angle.yaw, 0 - angle.roll⟩
  let target := targetVec tp ty
  let target_dir := target.normalizeTot
  (sim_loop rot av target target_dir 0).map fun (num_steps : Nat) =>
    { initial_angular_velocity := relative_ang_vel
      relative_target := rel_target_angles
      time := (num_steps : ℝ) / 120 }

/-! ### Concrete instances used in counterexamples and witnesses -/

/-- A rotation whose forward axis is the world Y axis (perpendicular to X). -/
def rotXY : Mat3 := ⟨⟨0, 1, 0⟩, ⟨-1, 0, 0⟩, ⟨0, 0, 1⟩⟩

/-- A trace that stays perpendicular to the X-axis target through step 3600 and
aligns with it from step 3601 on. -/
def rotLate (n : Nat) : Mat3 := if n ≤ 3600 then rotXY else Mat3.id

end RealModel

/-! ### Serialization layer: helper lemmas and claims C5, C6 -/

theorem encode_round_eq_join (rs : List SimResultBits) :
    encode_round rs = (rs.map encode_record).flatten := by
  suffices h : ∀ (l : List SimResultBits) (acc : List Nat),
      l.foldl (fun bytes r => bytes ++ encode_record r) acc =
        acc ++ (l.map encode_record).flatten by
    simpa using h rs []
  intro l
  induction l with
  | nil => intro acc; simp
  | cons r l ih => intro acc; simp [ih, List.append_assoc]

theorem length_encode_record (r : SimResultBits) : (encode_record r).length = 28 := by
  simp [encode_record, to_le_bytes]

/-- Claim C5: every Result Record serializes to exactly 28 bytes — seven
little-endian 32-bit floats in the fixed order angular-velocity x, y, z;
target pitch, yaw, roll; elapsed time — and the encoded round buffer is the
concatenation of the per-record images in round (append) order, with no
padding, header or trailing metadata, so its length is 28 times the record
count. -/
theorem C5_record_layout (r : SimResultBits) (rs : List SimResultBits) :
    (encode_record r).length = 28 ∧
    encode_record r =
      to_le_bytes r.initial_angular_velocity.x ++
      to_le_bytes r.initial_angular_velocity.y ++
      to_le_bytes r.initial_angular_velocity.z ++
      to_le_bytes r.relative_target.pitch ++
      to_le_bytes r.relative_target.yaw ++
      to_le_bytes r.relative_target.roll ++
      to_le_bytes r.time ∧
    encode_round rs = (rs.map encode_record).flatten ∧
    (encode_round rs).length = 28 * rs.length := by
  refine ⟨length_encode_record r, rfl, encode_round_eq_join rs, ?_⟩
  rw [encode_round_eq_join]
  induction rs with
  | nil => simp
  | cons s l ih => simp [length_encode_record, ih]; ring

theorem from_to_le_bytes (w : Nat) (h : w < 4294967296) :
    from_le_bytes (w % 256) (w / 256 % 256) (w / 65536 % 256)
      (w / 16777216 % 256) = w := by
  unfold from_le_bytes
  omega

/-- Claim C6: encoding a list of records and then decoding the (decompressed)
buffer reproduces the same records — all seven 32-bit fields bit-exact, in the
original order.  (`decode_round` is modelled from the spec, see its
doc-comment; the zstd compressor in between is external and lossless.) -/
theorem C6_round_trip (rs : List SimResultBits) (hwf : ∀ r ∈ rs, r.wf) :
    decode_round (encode_round rs) = rs := by
  rw [encode_round_eq_join]
  induction rs with
  | nil => rfl
  | cons r l ih =>
    obtain ⟨⟨ix, iy, iz⟩, ⟨tp, ty, tr⟩, t⟩ := r
    obtain ⟨h1, h2, h3, h4, h5, h6, h7⟩ := hwf _ (List.mem_cons_self _ _)
    have ihl := ih fun r hr => hwf r (List.mem_cons_of_mem _ hr)
    simp only [List.map_cons, List.flatten_cons, encode_record, to_le_bytes,
      List.cons_append, List.nil_append]
    rw [decode_round]
    rw [from_to_le_bytes _ h1, from_to_le_bytes _ h2, from_to_le_bytes _ h3,
      from_to_le_bytes _ h4, from_to_le_bytes _ h5, from_to_le_bytes _ h6,
      from_to_le_bytes _ h7, ihl]

/-- Witness for C6 at a concrete record list. -/
theorem C6_round_trip_witness :
    (∀ r ∈ [(⟨⟨1, 2, 3⟩, ⟨4, 5, 6⟩, 7⟩ : SimResultBits)], r.wf) ∧
    decode_round (encode_round [(⟨⟨1, 2, 3⟩, ⟨4, 5, 6⟩, 7⟩ : SimResultBits)]) =
      [⟨⟨1, 2, 3⟩, ⟨4, 5, 6⟩, 7⟩] :=
  ⟨by decide, C6_round_trip _ (by decide)⟩

/-! ### Aggregator: helper lemmas and claim C4 -/

theorem agg_no_flush {α : Type} (n : Nat) :
    ∀ (ms : List (List α)) (st : AggState α),
      st.current_threads + ms.length < n →
      ms.foldl (agg_step n) st =
        ⟨st.current_threads + ms.length, st.current_results ++ ms.flatten,
          st.flushed⟩ := by
  intro ms
  induction ms with
  | nil => intro st _; cases st; simp
  | cons b ms ih =>
    intro st hlt
    have hne : st.current_threads + 1 ≠ n := by simp at hlt; omega
    simp only [List.foldl_cons, agg_step, if_neg hne]
    rw [ih]
    · simp [List.append_assoc]; omega
    · simp at hlt ⊢; omega

theorem agg_flush {α : Type} (n : Nat) :
    ∀ (ms : List (List α)) (st : AggState α),
      0 < ms.length → st.current_threads + ms.length = n →
      ms.foldl (agg_step n) st =
        ⟨0, [], st.flushed ++ [st.current_results ++ ms.flatten]⟩ := by
  intro ms
  induction ms with
  | nil => intro st h _; simp at h
  | cons b ms ih =>
    intro st _ heq
    cases ms with
    | nil =>
      have hyes : st.current_threads + 1 = n := by simpa using heq
      simp [agg_step, hyes]
    | cons b2 ms2 =>
      have hne : st.current_threads + 1 ≠ n := by simp at heq; omega
      rw [List.foldl_cons]
      have hstep : agg_step n st b =
          ⟨st.current_threads + 1, st.current_results ++ b, st.flushed⟩ := by
        simp [agg_step, hne]
      rw [hstep, ih]
      · simp [List.append_assoc]
      · simp
      · simp at heq ⊢; omega

theorem agg_chunks {α : Type} (n : Nat) :
    ∀ (chunks : List (List (List α))) (rest : List (List α))
      (fl : List (List α)),
      (∀ c ∈ chunks, c.length = n) → rest.length < n →
      (chunks.flatten ++ rest).foldl (agg_step n) ⟨0, [], fl⟩ =
        ⟨rest.length, rest.flatten, fl ++ chunks.map List.flatten⟩ := by
  intro chunks
  induction chunks with
  | nil =>
    intro rest fl _ hr
    have := agg_no_flush n rest (⟨0, [], fl⟩ : AggState α) (by simpa using hr)
    simpa using this
  | cons c cs ih =>
    intro rest fl hc hr
    have hclen : c.length = n := hc c (List.mem_cons_self _ _)
    have hcpos : 0 < c.length := by
      rw [hclen]; exact Nat.lt_of_le_of_lt (Nat.zero_le _) hr
    rw [List.flatten_cons, List.append_assoc, List.foldl_append]
    rw [agg_flush n c (⟨0, [], fl⟩ : AggState α) hcpos (by simpa using hclen)]
    simp only [List.nil_append]
    rw [ih rest (fl ++ [c.flatten]) (fun d hd => hc d (List.mem_cons_of_mem _ hd)) hr]
    simp [List.append_assoc]

/-- Claim C4 counterexample: with 2 workers, if worker 0's first two batches
arrive before anything from worker 1 (nothing about the unbounded channel
forbids this — the round boundary is count-based, not worker-based), the first
round still closes after 2 batches, but both of its batches come from worker 0
and none from worker 1.  This refutes "every closed round consists of exactly
one batch from every worker". -/
theorem C4_counterexample :
    (agg_run_tagged 2 [(0, [7]), (0, [8]), (1, [9]), (1, [10])]).flushed.head? =
        some [7, 8] ∧
    (([(0, [7]), (0, [8]), (1, [9]), (1, [10])] :
        List (Nat × List Nat)).take 2).all (fun m => m.fst == 0) = true := by
  decide

/-- Claim C4 (amended): the aggregator closes a round exactly when the count of
received batches since the last round equals the worker count `n`; at that
point the round accumulator is flushed and cleared before any batch of the
next round is appended; every closed round consists of exactly `n` consecutive
batches of the arrival sequence (not necessarily one from every distinct
worker).  Formally: running on any arrival sequence that splits into full
chunks of `n` batches followed by a partial remainder, the flushed rounds are
precisely the concatenations of the full chunks, and the accumulator holds
exactly the remainder's records. -/
theorem C4_round_closing {α : Type} (n : Nat) (_hn : 0 < n)
    (chunks : List (List (List α))) (rest : List (List α))
    (hc : ∀ c ∈ chunks, c.length = n) (hr : rest.length < n) :
    agg_run n (chunks.flatten ++ rest) =
      ⟨rest.length, rest.flatten, chunks.map List.flatten⟩ := by
  have := agg_chunks n chunks rest [] hc hr
  simpa [agg_run] using this

/-- Witness for C4 (amended): 2 workers, three arriving batches — the first
two close round one, the third starts round two in a cleared accumulator. -/
theorem C4_round_closing_witness :
    agg_run 2 (([[[1], [2]]] : List (List (List Nat))).flatten ++ [[3]]) =
      ⟨([[3]] : List (List Nat)).length, ([[3]] : List (List Nat)).flatten,
        ([[[1], [2]]] : List (List (List Nat))).map List.flatten⟩ :=
  C4_round_closing 2 (by decide) [[[1], [2]]] [[3]] (by decide) (by decide)

/-! ### Control-loop characterization (helper lemmas) -/

theorem sim_loop_some_spec (rot : Nat → Mat3) (av : Nat → Vec3)
    (target target_dir : Vec3) :
    ∀ (d n k : Nat), 3602 - n = d → n ≤ 3601 →
      sim_loop rot av target target_dir n = some k →
      orientation_error (rot k) target_dir < 0.1 ∧ k ≤ 3601 ∧
        ∀ m, n ≤ m → m < k →
          ¬ orientation_error (rot m) target_dir < 0.1 := by
  intro d
  induction d with
  | zero => intro n k hd hn _; omega
  | succ d ih =>
    intro n k hd hn h
    rw [sim_loop] at h
    by_cases hc : orientation_error (rot n) target_dir < 0.1
    · rw [if_pos hc] at h
      injection h with h
      subst h
      exact ⟨hc, hn, by omega⟩
    · rw [if_neg hc] at h
      by_cases hcap : n > 120 * 30
      · rw [dif_pos hcap] at h
        cases h
      · rw [dif_neg hcap] at h
        replace h : sim_loop rot av target target_dir (n + 1) = some k := h
        obtain ⟨h1, h2, h3⟩ := ih (n + 1) k (by omega) (by omega) h
        refine ⟨h1, h2, fun m hm1 hm2 => ?_⟩
        rcases Nat.eq_or_lt_of_le hm1 with rfl | hlt
        · exact hc
        · exact h3 m hlt hm2

theorem sim_loop_reaches (rot : Nat → Mat3) (av : Nat → Vec3)
    (target target_dir : Vec3) :
    ∀ (d n k : Nat), 3602 - n = d → n ≤ k → k ≤ 3601 →
      orientation_error (rot k) target_dir < 0.1 →
      (∀ m, n ≤ m → m < k →
        ¬ orientation_error (rot m) target_dir < 0.1) →
      sim_loop rot av target target_dir n = some k := by
  intro d
  induction d with
  | zero => intro n k hd hnk hk _ _; omega
  | succ d ih =>
    intro n k hd hnk hk hconv hmin
    rw [sim_loop]
    rcases Nat.eq_or_lt_of_le hnk with rfl | hlt
    · rw [if_pos hconv]
    · have hc : ¬ orientation_error (rot n) target_dir < 0.1 :=
        hmin n (Nat.le_refl n) hlt
      rw [if_neg hc]
      have hcap : ¬ n > 120 * 30 := by omega
      rw [dif_neg hcap]
      show sim_loop rot av target target_dir (n + 1) = some k
      exact ih (n + 1) k (by omega) hlt hk hconv
        fun m hm1 hm2 => hmin m (by omega) hm2

theorem sim_loop_none_of (rot : Nat → Mat3) (av : Nat → Vec3)
    (target target_dir : Vec3) :
    ∀ (d n : Nat), 3602 - n = d → n ≤ 3601 →
      sim_loop rot av target target_dir n = none →
      ∀ m, n ≤ m → m ≤ 3601 →
        ¬ orientation_error (rot m) target_dir < 0.1 := by
  intro d
  induction d with
  | zero => intro n hd hn _; omega
  | succ d ih =>
    intro n hd hn h
    rw [sim_loop] at h
    by_cases hc : orientation_error (rot n) target_dir < 0.1
    · rw [if_pos hc] at h; cases h
    · rw [if_neg hc] at h
      by_cases hcap : n > 120 * 30
      · intro m hm1 hm2
        have : m = n := by omega
        subst this
        exact hc
      · rw [dif_neg hcap] at h
        replace h : sim_loop rot av target target_dir (n + 1) = none := h
        intro m hm1 hm2
        rcases Nat.eq_or_lt_of_le hm1 with rfl | hlt
        · exact hc
        · exact ih (n + 1) (by omega) (by omega) h m hlt hm2

theorem sim_loop_none_from (rot : Nat → Mat3) (av : Nat → Vec3)
    (target target_dir : Vec3) :
    ∀ (d n : Nat), 3602 - n = d → n ≤ 3601 →
      (∀ m, n ≤ m → m ≤ 3601 →
        ¬ orientation_error (rot m) target_dir < 0.1) →
      sim_loop rot av target target_dir n = none := by
  intro d
  induction d with
  | zero => intro n hd hn _; omega
  | succ d ih =>
    intro n hd hn hno
    rw [sim_loop]
    have hc : ¬ orientation_error (rot n) target_dir < 0.1 :=
      hno n (Nat.le_refl n) hn
    rw [if_neg hc]
    by_cases hcap : n > 120 * 30
    · rw [dif_pos hcap]
    · rw [dif_neg hcap]
      show sim_loop rot av target target_dir (n + 1) = none
      exact ih (n + 1) (by omega) (by omega) fun m hm1 hm2 => hno m (by omega) hm2

/-! ### Concrete evaluations (helper lemmas) -/

theorem mulVec_zero (m : Mat3) : m.mulVec ⟨0, 0, 0⟩ = ⟨0, 0, 0⟩ := by
  simp [Mat3.mulVec, Vec3.smul, Vec3.add]

theorem orientation_error_id : orientation_error Mat3.id ⟨1, 0, 0⟩ = 0 := by
  have h1 : Mat3.id.mulVec ⟨1, 0, 0⟩ = ⟨1, 0, 0⟩ := by
    simp [Mat3.mulVec, Mat3.id, Vec3.smul, Vec3.add]
  have h2 : Vec3.dot ⟨1, 0, 0⟩ ⟨1, 0, 0⟩ = 1 := by
    simp [Vec3.dot]
  have h3 : clampR 1 (-1) 1 = 1 := by
    rw [clampR, max_eq_left (by norm_num : (-1 : ℝ) ≤ 1), min_self]
  rw [orientation_error, h1, h2, h3, Real.arccos_one]

theorem orientation_error_rotXY :
    orientation_error rotXY ⟨1, 0, 0⟩ = Real.pi / 2 := by
  have h1 : rotXY.mulVec ⟨1, 0, 0⟩ = ⟨0, 1, 0⟩ := by
    simp [Mat3.mulVec, rotXY, Vec3.smul, Vec3.add]
  have h2 : Vec3.dot ⟨0, 1, 0⟩ ⟨1, 0, 0⟩ = 0 := by
    simp [Vec3.dot]
  have h3 : clampR 0 (-1) 1 = 0 := by
    rw [clampR, max_eq_left (by norm_num : (-1 : ℝ) ≤ 0),
      min_eq_left (by norm_num : (0 : ℝ) ≤ 1)]
  rw [orientation_error, h1, h2, h3, Real.arccos_zero]

theorem half_pi_not_small : ¬ Real.pi / 2 < 0.1 := by
  have h := Real.pi_gt_three
  intro hlt
  rw [show (0.1 : ℝ) = 1 / 10 by norm_num] at hlt
  nlinarith

/-- The loop converges immediately when the initial forward axis already points
at the target direction. -/
theorem sim_loop_aligned (rot : Nat → Mat3) (av : Nat → Vec3) (target : Vec3)
    (hr : rot 0 = Mat3.id) :
    sim_loop rot av target ⟨1, 0, 0⟩ 0 = some 0 := by
  rw [sim_loop, hr, if_pos]
  rw [orientation_error_id]
  norm_num

/-- With the `rotLate` trace the loop stays unconverged through step 3600 and
is still allowed to succeed at step counter 3601 (the error check precedes the
step-cap check). -/
theorem sim_loop_late_eval (av : Nat → Vec3) (target : Vec3) :
    sim_loop rotLate av target ⟨1, 0, 0⟩ 0 = some 3601 := by
  apply sim_loop_reaches rotLate av target ⟨1, 0, 0⟩ 3602 0 3601 rfl
    (by omega) (by omega)
  · rw [show rotLate 3601 = Mat3.id by rw [rotLate]; norm_num]
    rw [orientation_error_id]
    norm_num
  · intro m _ hm2
    rw [show rotLate m = rotXY by rw [rotLate, if_pos (by omega)]]
    rw [orientation_error_rotXY]
    exact half_pi_not_small

theorem targetVec_zero : targetVec 0 0 = ⟨1000, 0, 0⟩ := by
  simp [targetVec, Vec3.smul, Real.cos_zero, Real.sin_zero]

theorem normalizeTot_xunit : (⟨1000, 0, 0⟩ : Vec3).normalizeTot = ⟨1, 0, 0⟩ := by
  have hl : Vec3.length ⟨1000, 0, 0⟩ = 1000 := by
    rw [Vec3.length, Vec3.dot]
    rw [show (1000 : ℝ) * 1000 + 0 * 0 + 0 * 0 = 1000 ^ 2 by norm_num]
    exact Real.sqrt_sq (by norm_num)
  rw [Vec3.normalizeTot, hl, Vec3.smul]
  norm_num

/-- Full evaluation of `do_random` on the degenerate aligned scenario, for any
engine whose reported initial orientation is the identity. -/
theorem do_random_aligned (to_rotmat : Angle → Mat3) (rot : Nat → Mat3)
    (av : Nat → Vec3) (hr : rot 0 = Mat3.id) :
    do_random to_rotmat rot av ⟨0, 0, 0⟩ ⟨0, 0, 0⟩ 0 0 =
      some ⟨⟨0, 0, 0⟩, ⟨0, 0, 0⟩, 0⟩ := by
  rw [do_random]
  simp only [targetVec_zero, normalizeTot_xunit]
  rw [sim_loop_aligned rot av _ hr]
  rw [Option.map_some']
  rw [mulVec_zero (to_rotmat (⟨0, 0, 0⟩ : Angle)).transpose]
  norm_num

/-- Evaluation of `do_random` on a scenario whose trace stays unconverged
through step 3600 and aligns at 3601: the emitted record's time is 3601/120. -/
theorem do_random_late :
    do_random (fun _ => Mat3.id) rotLate (fun _ => ⟨0, 0, 0⟩) ⟨0, 0, 0⟩
        ⟨0, 0, 0⟩ 0 0 =
      some ⟨⟨0, 0, 0⟩, ⟨0, 0, 0⟩, 3601 / 120⟩ := by
  rw [do_random]
  simp only [targetVec_zero, normalizeTot_xunit]
  rw [sim_loop_late_eval]
  rw [Option.map_some']
  rw [mulVec_zero (Mat3.id).transpose]
  norm_num

/-! ### Claim C1 -/

/-- Claim C1 counterexample: both bounds of "elapsed time ∈ (0, 30]" fail on
the code.  (i) When the initial forward axis already satisfies the convergence
test, the error check fires before the first step, `num_steps = 0`, and a
record with elapsed time 0 is emitted — contradicting "strictly greater than
0".  (ii) The error check precedes the step-cap check, so convergence at step
counter 3601 is still emitted, with elapsed time 3601/120 > 30 — contradicting
"at most 30". -/
theorem C1_counterexample :
    (do_random (fun _ => Mat3.id) (fun _ => Mat3.id) (fun _ => ⟨0, 0, 0⟩)
        ⟨0, 0, 0⟩ ⟨0, 0, 0⟩ 0 0 =
          some ⟨⟨0, 0, 0⟩, ⟨0, 0, 0⟩, 0⟩ ∧ ¬ (0 : ℝ) > 0) ∧
    (do_random (fun _ => Mat3.id) rotLate (fun _ => ⟨0, 0, 0⟩) ⟨0, 0, 0⟩
        ⟨0, 0, 0⟩ 0 0 =
          some ⟨⟨0, 0, 0⟩, ⟨0, 0, 0⟩, 3601 / 120⟩ ∧
      ¬ ((3601 : ℝ) / 120 ≤ 30)) :=
  ⟨⟨do_random_aligned _ _ _ rfl, by norm_num⟩,
   ⟨do_random_late, by norm_num⟩⟩

/-- Claim C1 (amended): for every Result Record emitted by `do_random`, the
recorded elapsed time lies in [0, 3601/120] seconds: it is 0 exactly when the
convergence test already holds before the first step, and the step counter at
success is at most 120·30 + 1 = 3601 (the error check precedes the step-cap
check), so the recorded time never exceeds 3601/120 ≈ 30.0083 s. -/
theorem C1_time_bounds (to_rotmat : Angle → Mat3) (rot : Nat → Mat3)
    (av : Nat → Vec3) (av0 : Vec3) (angle : Angle) (tp ty : ℝ)
    (res : SimResult)
    (h : do_random to_rotmat rot av av0 angle tp ty = some res) :
    0 ≤ res.time ∧ res.time ≤ 3601 / 120 := by
  simp only [do_random] at h
  cases hloop : sim_loop rot av (targetVec tp ty) (targetVec tp ty).normalizeTot 0 with
  | none => rw [hloop] at h; cases h
  | some k =>
    rw [hloop, Option.map_some'] at h
    injection h with h
    subst h
    obtain ⟨-, hk, -⟩ :=
      sim_loop_some_spec rot av _ _ 3602 0 k rfl (by omega) hloop
    have hk' : (k : ℝ) ≤ 3601 := by exact_mod_cast hk
    dsimp only
    constructor
    · positivity
    · gcongr

/-- Witness for C1 (amended) at the degenerate aligned scenario. -/
theorem C1_time_bounds_witness :
    0 ≤ ((⟨⟨0, 0, 0⟩, ⟨0, 0, 0⟩, 0⟩ : SimResult)).time ∧
      ((⟨⟨0, 0, 0⟩, ⟨0, 0, 0⟩, 0⟩ : SimResult)).time ≤ 3601 / 120 :=
  C1_time_bounds (fun _ => Mat3.id) (fun _ => Mat3.id) (fun _ => ⟨0, 0, 0⟩)
    ⟨0, 0, 0⟩ ⟨0, 0, 0⟩ 0 0 _ (do_random_aligned _ _ _ rfl)

/-! ### Claim C2 -/

/-- Claim C2: on every iteration the controller first computes the orientation
error (`orientation_error` — the arccosine of the dot product of the current
forward axis with the fixed target direction, clamped to [-1, 1] before the
arccosine); if it is < 0.1 rad the loop terminates with success at the current
counter, with no earlier counter converged; otherwise, once the step counter
exceeds the fixed cap 120·30 = 3600 it terminates with failure (`none` —
success is only possible up to counter 3601 since the error check comes
first); a failure emits no record: the worker's batch is unchanged by a `none`
outcome, and the outer loop just continues with the remaining scenarios. -/
theorem C2_loop_policy (rot : Nat → Mat3) (av : Nat → Vec3)
    (target target_dir : Vec3) :
    (∀ k, sim_loop rot av target target_dir 0 = some k →
      orientation_error (rot k) target_dir < 0.1 ∧ k ≤ 120 * 30 + 1 ∧
        ∀ m, m < k → ¬ orientation_error (rot m) target_dir < 0.1) ∧
    (sim_loop rot av target target_dir 0 = none ↔
      ∀ m, m ≤ 120 * 30 + 1 →
        ¬ orientation_error (rot m) target_dir < 0.1) ∧
    (∀ outcomes : List (Option SimResult),
      collect_results (outcomes ++ [none]) = collect_results outcomes) := by
  refine ⟨fun k h => ?_, ⟨fun h m hm => ?_, fun h => ?_⟩, fun outcomes => ?_⟩
  · obtain ⟨h1, h2, h3⟩ :=
      sim_loop_some_spec rot av target target_dir 3602 0 k rfl (by omega) h
    exact ⟨h1, by omega, fun m hm => h3 m (Nat.zero_le m) hm⟩
  · exact sim_loop_none_of rot av target target_dir 3602 0 rfl (by omega) h m
      (Nat.zero_le m) (by omega)
  · exact sim_loop_none_from rot av target target_dir 3602 0 rfl (by omega)
      fun m _ hm2 => h m (by omega)
  · simp [collect_results]

/-- Witness for C2 at the aligned scenario: the loop succeeds at counter 0 and
the characterization yields the converged error there. -/
theorem C2_loop_policy_witness :
    orientation_error Mat3.id ⟨1, 0, 0⟩ < 0.1 ∧ (0 : Nat) ≤ 120 * 30 + 1 := by
  have h := (C2_loop_policy (fun _ => Mat3.id) (fun _ => ⟨0, 0, 0⟩)
    ⟨1000, 0, 0⟩ ⟨1, 0, 0⟩).1 0 (sim_loop_aligned _ _ _ rfl)
  exact ⟨h.1, h.2.1⟩

/-! ### Claim C8 -/

/-- Claim C8: every record emitted by `do_random` carries (i) the sampled
world-frame angular velocity re-expressed in the vehicle's frame at scenario
start — the transpose of the initial rotation matrix applied to it; (ii) the
target angles relative to the vehicle's initial orientation (componentwise
differences, with relative roll 0 − roll); and (iii) the elapsed tick count of
the convergence loop converted to seconds as ticks / 120. -/
theorem C8_record_contents (to_rotmat : Angle → Mat3) (rot : Nat → Mat3)
    (av : Nat → Vec3) (av0 : Vec3) (angle : Angle) (tp ty : ℝ)
    (res : SimResult)
    (h : do_random to_rotmat rot av av0 angle tp ty = some res) :
    res.initial_angular_velocity = (to_rotmat angle).transpose.mulVec av0 ∧
    res.relative_target =
      ⟨tp - angle.pitch, ty - angle.yaw, 0 - angle.roll⟩ ∧
    ∃ n, sim_loop rot av (targetVec tp ty) (targetVec tp ty).normalizeTot 0 =
        some n ∧ res.time = (n : ℝ) / 120 := by
  simp only [do_random] at h
  cases hloop : sim_loop rot av (targetVec tp ty) (targetVec tp ty).normalizeTot 0 with
  | none => rw [hloop] at h; cases h
  | some k =>
    rw [hloop, Option.map_some'] at h
    injection h with h
    subst h
    exact ⟨rfl, rfl, k, rfl, rfl⟩

/-- Witness for C8 at the degenerate aligned scenario. -/
theorem C8_record_contents_witness :
    ((⟨⟨0, 0, 0⟩, ⟨0, 0, 0⟩, 0⟩ : SimResult)).initial_angular_velocity =
        (Mat3.id).transpose.mulVec ⟨0, 0, 0⟩ ∧
    ((⟨⟨0, 0, 0⟩, ⟨0, 0, 0⟩, 0⟩ : SimResult)).relative_target =
        ⟨(0 : ℝ) - 0, (0 : ℝ) - 0, (0 : ℝ) - 0⟩ := by
  have h := C8_record_contents (fun _ => Mat3.id) (fun _ => Mat3.id)
    (fun _ => ⟨0, 0, 0⟩) ⟨0, 0, 0⟩ ⟨0, 0, 0⟩ 0 0 _ (do_random_aligned _ _ _ rfl)
  exact ⟨h.1, h.2.1⟩

/-! ### Claim C9 -/

/-- Claim C9 counterexample: in the degenerate scenario (zero angular
velocity, all-zero initial orientation, target pitch = yaw = 0, engine
reporting the identity initial orientation), the forward axis is already
aligned, the convergence check fires before any step, and the emitted record's
elapsed time is 0 — not the tick period 1/120 the claim asserts. -/
theorem C9_counterexample :
    do_random (fun _ => Mat3.id) (fun _ => Mat3.id) (fun _ => ⟨0, 0, 0⟩)
        ⟨0, 0, 0⟩ ⟨0, 0, 0⟩ 0 0 =
      some ⟨⟨0, 0, 0⟩, ⟨0, 0, 0⟩, 0⟩ ∧ (0 : ℝ) ≠ 1 / 120 :=
  ⟨do_random_aligned _ _ _ rfl, by norm_num⟩

/-- Claim C9 (amended): in the degenerate scenario — zero initial angular
velocity, all-zero initial orientation, target pitch = 0 and yaw = 0 — for any
engine whose reported orientation at the first loop iteration is the identity
(the orientation that was just set), the controller terminates after 0 ticks
(the convergence check precedes the first step) and the recorded elapsed time
is 0 seconds. -/
theorem C9_degenerate (to_rotmat : Angle → Mat3) (rot : Nat → Mat3)
    (av : Nat → Vec3) (hr : rot 0 = Mat3.id) :
    do_random to_rotmat rot av ⟨0, 0, 0⟩ ⟨0, 0, 0⟩ 0 0 =
      some ⟨⟨0, 0, 0⟩, ⟨0, 0, 0⟩, 0⟩ :=
  do_random_aligned to_rotmat rot av hr

/-- Witness for C9 (amended): an engine trace that is the identity at step 0
and arbitrary afterwards. -/
theorem C9_degenerate_witness :
    do_random (fun _ => Mat3.id)
        (fun n => if n = 0 then Mat3.id else rotXY) (fun _ => ⟨0, 0, 0⟩)
        ⟨0, 0, 0⟩ ⟨0, 0, 0⟩ 0 0 =
      some ⟨⟨0, 0, 0⟩, ⟨0, 0, 0⟩, 0⟩ :=
  C9_degenerate _ _ _ (by simp)

/-! ### Claim C3 -/

theorem clampR_bounds (v : ℝ) : -1 ≤ clampR v (-1) 1 ∧ clampR v (-1) 1 ≤ 1 :=
  ⟨le_min (le_max_right v (-1)) (by norm_num), min_le_right _ _⟩

/-- Claim C3: for every axis (pitch, yaw, roll) and every local-frame input,
the actuator command equals `clamp(((35 · (angle + rate_scaled))³) / 10, −1, 1)`
where `angle` is that axis's atan2-derived local-frame target angle and
`rate_scaled` is the angular-rate component divided by 3.4 for pitch, by 5.0
with inverted sign for yaw, and by 3.1 for roll; consequently every emitted
command lies in [−1, 1] for all inputs. -/
theorem C3_control_law (local_target local_ang_vel local_up : Vec3) :
    ((default_pd local_target local_ang_vel local_up).pitch =
        clampR ((35 * (atan2 local_target.z local_target.x +
          local_ang_vel.y / 3.4)) ^ 3 / 10) (-1) 1 ∧
      (default_pd local_target local_ang_vel local_up).yaw =
        clampR ((35 * (atan2 local_target.y local_target.x +
          -local_ang_vel.z / 5.0)) ^ 3 / 10) (-1) 1 ∧
      (default_pd local_target local_ang_vel local_up).roll =
        clampR ((35 * (atan2 local_up.y local_up.z +
          local_ang_vel.x / 3.1)) ^ 3 / 10) (-1) 1) ∧
    (-1 ≤ (default_pd local_target local_ang_vel local_up).pitch ∧
      (default_pd local_target local_ang_vel local_up).pitch ≤ 1) ∧
    (-1 ≤ (default_pd local_target local_ang_vel local_up).yaw ∧
      (default_pd local_target local_ang_vel local_up).yaw ≤ 1) ∧
    (-1 ≤ (default_pd local_target local_ang_vel local_up).roll ∧
      (default_pd local_target local_ang_vel local_up).roll ≤ 1) :=
  ⟨⟨rfl, rfl, rfl⟩, clampR_bounds _, clampR_bounds _, clampR_bounds _⟩

/-! ### Sampler lemmas and claims C7, C10 -/

theorem dot_self_nonneg (v : Vec3) : 0 ≤ v.dot v := by
  rw [Vec3.dot]
  nlinarith [mul_self_nonneg v.x, mul_self_nonneg v.y, mul_self_nonneg v.z]

theorem length_nonneg (v : Vec3) : 0 ≤ v.length := Real.sqrt_nonneg _

theorem length_eq_zero_iff (v : Vec3) :
    v.length = 0 ↔ v.x = 0 ∧ v.y = 0 ∧ v.z = 0 := by
  constructor
  · intro h
    have hd : v.dot v = 0 :=
      le_antisymm (Real.sqrt_eq_zero'.mp h) (dot_self_nonneg v)
    rw [Vec3.dot] at hd
    refine ⟨mul_self_eq_zero.mp ?_, mul_self_eq_zero.mp ?_,
      mul_self_eq_zero.mp ?_⟩ <;>
      nlinarith [mul_self_nonneg v.x, mul_self_nonneg v.y, mul_self_nonneg v.z]
  · rintro ⟨hx, hy, hz⟩
    rw [Vec3.length, Vec3.dot, hx, hy, hz]
    norm_num [Real.sqrt_zero]

theorem length_smul (c : ℝ) (v : Vec3) :
    (Vec3.smul c v).length = |c| * v.length := by
  rw [Vec3.smul, Vec3.length, Vec3.dot]
  rw [show c * v.x * (c * v.x) + c * v.y * (c * v.y) + c * v.z * (c * v.z) =
    c ^ 2 * (v.x * v.x + v.y * v.y + v.z * v.z) by ring]
  rw [Real.sqrt_mul (sq_nonneg c), Real.sqrt_sq_eq_abs]
  rfl

/-- The sampler's angular velocity is non-finite whenever the three direction
draws are all zero, for any magnitude draw. -/
theorem sampleAngVel_zero_eval (u : ℝ) : sampleAngVel 0 0 0 u = none := by
  have h0 : Vec3.length ⟨0, 0, 0⟩ = 0 := by
    rw [Vec3.length, Vec3.dot]
    norm_num [Real.sqrt_zero]
  rw [sampleAngVel, Vec3.normalize, if_pos h0]
  rfl

/-- Claim C10: if the three uniform draws for the angular-velocity direction
are all zero (0 is a possible value of a uniform draw in [0,1)), normalizing
the zero vector yields a non-finite (NaN) direction — modelled as `none` — so
for that state of the random source the sampling step produces no finite
angular velocity at all, and the computation is not total over the random
source's outputs. -/
theorem C10_zero_draws_nonfinite : sampleAngVel 0 0 0 (1 / 2) = none :=
  sampleAngVel_zero_eval (1 / 2)

/-- Claim C7 counterexample: at the random-source state drawing 0 for all
three direction components, the sampler produces no (finite) angular-velocity
vector at all — the glam normalization is NaN, modelled as `none` — so in
particular it does not produce an angular velocity whose magnitude lies in
[0, 5.5].  This refutes the claim's "for every state of the random source". -/
theorem C7_counterexample :
    (sampleScenario 0 0 0 (1 / 2) (1 / 2) (1 / 2) (1 / 2) (1 / 2)
        (1 / 2)).ang_vel = none :=
  sampleAngVel_zero_eval (1 / 2)

theorem unit_mul_pi_mem (r : ℝ) (h0 : 0 ≤ r) (h1 : r < 1) :
    0 ≤ r * Real.pi ∧ r * Real.pi < Real.pi :=
  ⟨mul_nonneg h0 Real.pi_pos.le, by nlinarith [Real.pi_pos]⟩

/-- Claim C7 (amended): for every state of the random source whose three
angular-velocity direction draws are not all zero, the Scenario Sampler
produces an angular velocity of magnitude u · 5.5 ∈ [0, 5.5] (direction by
normalizing the three draws, scaled by the uniform magnitude draw u), an
initial orientation with each of pitch, yaw, roll in [0, π), and a target
orientation with pitch and yaw each in [0, π); sampling is a pure function of
the draws.  (At the all-zero direction draw the normalization is non-finite —
`none` — see C10.) -/
theorem C7_sampler_ranges (d0 d1 d2 u p y rr tp ty : ℝ)
    (hne : ¬(d0 = 0 ∧ d1 = 0 ∧ d2 = 0))
    (hu : 0 ≤ u ∧ u < 1) (hp : 0 ≤ p ∧ p < 1) (hy : 0 ≤ y ∧ y < 1)
    (hrr : 0 ≤ rr ∧ rr < 1) (htp : 0 ≤ tp ∧ tp < 1)
    (hty : 0 ≤ ty ∧ ty < 1) :
    (∃ w, (sampleScenario d0 d1 d2 u p y rr tp ty).ang_vel = some w ∧
      Vec3.length w = u * 5.5 ∧ 0 ≤ Vec3.length w ∧ Vec3.length w ≤ 5.5) ∧
    (0 ≤ (sampleScenario d0 d1 d2 u p y rr tp ty).angle.pitch ∧
      (sampleScenario d0 d1 d2 u p y rr tp ty).angle.pitch < Real.pi) ∧
    (0 ≤ (sampleScenario d0 d1 d2 u p y rr tp ty).angle.yaw ∧
      (sampleScenario d0 d1 d2 u p y rr tp ty).angle.yaw < Real.pi) ∧
    (0 ≤ (sampleScenario d0 d1 d2 u p y rr tp ty).angle.roll ∧
      (sampleScenario d0 d1 d2 u p y rr tp ty).angle.roll < Real.pi) ∧
    (0 ≤ (sampleScenario d0 d1 d2 u p y rr tp ty).target_pitch ∧
      (sampleScenario d0 d1 d2 u p y rr tp ty).target_pitch < Real.pi) ∧
    (0 ≤ (sampleScenario d0 d1 d2 u p y rr tp ty).target_yaw ∧
      (sampleScenario d0 d1 d2 u p y rr tp ty).target_yaw < Real.pi) := by
  refine ⟨?_, unit_mul_pi_mem p hp.1 hp.2, unit_mul_pi_mem y hy.1 hy.2,
    unit_mul_pi_mem rr hrr.1 hrr.2, unit_mul_pi_mem tp htp.1 htp.2,
    unit_mul_pi_mem ty hty.1 hty.2⟩
  have hlen : Vec3.length ⟨d0, d1, d2⟩ ≠ 0 := fun h =>
    hne ((length_eq_zero_iff _).mp h)
  have hlpos : 0 < Vec3.length ⟨d0, d1, d2⟩ :=
    lt_of_le_of_ne (length_nonneg _) (Ne.symm hlen)
  refine ⟨Vec3.smul 5.5 (Vec3.smul u
    (Vec3.smul (1 / Vec3.length ⟨d0, d1, d2⟩) ⟨d0, d1, d2⟩)), ?_, ?_, ?_, ?_⟩
  · show sampleAngVel d0 d1 d2 u = _
    rw [sampleAngVel, Vec3.normalize, if_neg hlen, Option.map_some']
  · rw [length_smul, length_smul, length_smul]
    rw [abs_of_nonneg hu.1, abs_of_nonneg (by positivity : (0:ℝ) ≤ 5.5),
      abs_of_nonneg (by positivity : (0:ℝ) ≤ 1 / Vec3.length ⟨d0, d1, d2⟩)]
    rw [one_div, inv_mul_cancel₀ hlen]
    ring
  · rw [length_smul, length_smul, length_smul]
    positivity
  · rw [length_smul, length_smul, length_smul]
    rw [abs_of_nonneg hu.1, abs_of_nonneg (by positivity : (0:ℝ) ≤ 5.5),
      abs_of_nonneg (by positivity : (0:ℝ) ≤ 1 / Vec3.length ⟨d0, d1, d2⟩)]
    rw [one_div, inv_mul_cancel₀ hlen]
    nlinarith [hu.1, hu.2]

/-- Witness for C7 (amended) at concrete draws (1/2, 0, 0) for the direction
and 1/2 for everything else. -/
theorem C7_sampler_ranges_witness :
    (∃ w, (sampleScenario (1/2) 0 0 (1/2) (1/2) (1/2) (1/2) (1/2)
        (1/2)).ang_vel = some w ∧
      Vec3.length w = (1/2) * 5.5 ∧ 0 ≤ Vec3.length w ∧ Vec3.length w ≤ 5.5) ∧
    (0 ≤ (sampleScenario (1/2) 0 0 (1/2) (1/2) (1/2) (1/2) (1/2)
        (1/2)).angle.pitch ∧
      (sampleScenario (1/2) 0 0 (1/2) (1/2) (1/2) (1/2) (1/2)
        (1/2)).angle.pitch < Real.pi) ∧
    (0 ≤ (sampleScenario (1/2) 0 0 (1/2) (1/2) (1/2) (1/2) (1/2)
        (1/2)).angle.yaw ∧
      (sampleScenario (1/2) 0 0 (1/2) (1/2) (1/2) (1/2) (1/2)
        (1/2)).angle.yaw < Real.pi) ∧
    (0 ≤ (sampleScenario (1/2) 0 0 (1/2) (1/2) (1/2) (1/2) (1/2)
        (1/2)).angle.roll ∧
      (sampleScenario (1/2) 0 0 (1/2) (1/2) (1/2) (1/2) (1/2)
        (1/2)).angle.roll < Real.pi) ∧
    (0 ≤ (sampleScenario (1/2) 0 0 (1/2) (1/2) (1/2) (1/2) (1/2)
        (1/2)).target_pitch ∧
      (sampleScenario (1/2) 0 0 (1/2) (1/2) (1/2) (1/2) (1/2)
        (1/2)).target_pitch < Real.pi) ∧
    (0 ≤ (sampleScenario (1/2) 0 0 (1/2) (1/2) (1/2) (1/2) (1/2)
        (1/2)).target_yaw ∧
      (sampleScenario (1/2) 0 0 (1/2) (1/2) (1/2) (1/2) (1/2)
        (1/2)).target_yaw < Real.pi) :=
  C7_sampler_ranges (1/2) 0 0 (1/2) (1/2) (1/2) (1/2) (1/2) (1/2)
    (by norm_num) (by norm_num) (by norm_num) (by norm_num) (by norm_num)
    (by norm_num) (by norm_num)

end StatFinalData
